import Mathlib

/-!
# Kiosk orchestration core: a shallow embedding

This development embeds the session registry, conversation pipeline and
image scheduling of the kiosk repository in Lean and proves (or refutes)
the specification claims about them.

Embedded sources:
* `src/frontend/kiosk/src/image-scheduler.js` — client clock sync and
  playout scheduler (`initializeSync`, `convertToLocalTime`, `scheduleShow`).
* `src/services/orchestrator/src/index.js` — session registry
  (`endSession`, `refreshSessionTimeout`), the `/converse` pipeline with
  its fence-stripping LLM-reply parser, the timeline scheduling block and
  `enrichImagePayload`.
* `src/services/real-tts/src/index.js` — the TTS cache used by
  `synthesizeText` (`loadFromCache` / `saveToCacheAsync`).

JavaScript numbers used as millisecond timestamps are modelled as `Int`;
JavaScript strings subject to character-level manipulation (fence
stripping, keyword search) are modelled as `List Char`; the JSON parser
(`JSON.parse`) and the audio synthesiser are abstract parameters.
-/

namespace Kiosk

/-! ## Client clock sync (image-scheduler.js, lines 36-60)

State fields mirror the `ImageScheduler` members `timeOffset` and
`syncInitialized`.  The clock reads (`performance.now()`) are passed as
explicit arguments. -/

structure SyncState where
  timeOffset : Option Int
  syncInitialized : Bool
deriving Repr, DecidableEq

def initialSync : SyncState := { timeOffset := none, syncInitialized := false }

/-- JS `initializeSync(serverPlayoutTs)`: a no-op when already initialised,
otherwise `timeOffset = serverPlayoutTs - performance.now()`. -/
def initializeSync (st : SyncState) (serverPlayoutTs clientNow : Int) : SyncState :=
  if st.syncInitialized then st
  else { timeOffset := some (serverPlayoutTs - clientNow), syncInitialized := true }

/-- JS `convertToLocalTime(serverPlayoutTs)`.  When not yet initialised the
code initialises from the message itself (clock read `cInit`) and returns
a fresh `performance.now()` (clock read `cRet`); when initialised it
returns `serverPlayoutTs - this.timeOffset`. -/
def convertToLocalTime (st : SyncState) (serverPlayoutTs cInit cRet : Int) :
    SyncState × Int :=
  if st.syncInitialized then (st, serverPlayoutTs - st.timeOffset.getD 0)
  else (initializeSync st serverPlayoutTs cInit, cRet)

/-! ## Client playout scheduler (image-scheduler.js, lines 108-142) -/

inductive ShowOutcome where
  | scheduled (fireAt : Int)
  | immediate
  | dropped
deriving Repr, DecidableEq

structure SchedulerState where
  sync : SyncState
  scheduledShows : List (String × Int)
deriving Repr, DecidableEq

/-- JS `scheduleShow(message)`.  Clock reads, in source order: `cInit` is
`performance.now()` inside the guarded `initializeSync` call (line 113),
`cConvInit` and `cConvRet` are the reads inside `convertToLocalTime`'s
uninitialised branch, and `cNow` is the read at line 118.  The JavaScript
truthiness test `!this.syncInitialized && playout_ts` is `playout_ts ≠ 0`
on numbers. -/
def scheduleShow (st : SchedulerState) (id : String) (playout_ts : Int)
    (cInit cConvInit cConvRet cNow : Int) : SchedulerState × ShowOutcome :=
  let sync1 :=
    if st.sync.syncInitialized = false ∧ playout_ts ≠ 0 then
      initializeSync st.sync playout_ts cInit
    else st.sync
  let conv := convertToLocalTime sync1 playout_ts cConvInit cConvRet
  let localPlayoutTime := conv.2
  let delay := localPlayoutTime - cNow
  if delay > 0 then
    ({ sync := conv.1, scheduledShows := st.scheduledShows ++ [(id, cNow + delay)] },
      .scheduled (cNow + delay))
  else if delay > -100 then
    ({ sync := conv.1, scheduledShows := st.scheduledShows }, .immediate)
  else
    ({ sync := conv.1, scheduledShows := st.scheduledShows }, .dropped)

/-! ## Session registry (orchestrator index.js)

`sessions` is the in-memory `Map`, modelled as an association list;
`sessionTimeouts` maps session ids to the absolute expiry instant of the
armed inactivity timer. -/

structure Session where
  session_id : String
  kiosk_id : String
  room_name : String
  created_at : Int
  duration_seconds : Int
  status : String
  last_activity : Int
  ended_at : Option Int
  end_reason : Option String
deriving Repr, DecidableEq

structure OrchState where
  sessions : List (String × Session)
  sessionTimeouts : List (String × Int)
deriving Repr, DecidableEq

def lookupS : List (String × Session) → String → Option Session
  | [], _ => none
  | (k, v) :: rest, sid => if k = sid then some v else lookupS rest sid

/-- Mutating the object stored under a key of the `sessions` map. -/
def updateS (m : List (String × Session)) (sid : String) (s : Session) :
    List (String × Session) :=
  m.map fun p => if p.1 = sid then (sid, s) else p

def SESSION_TIMEOUT_MS : Int := 600000

/-- JS `clearTimeout(sessionTimeouts.get(id))` plus `sessionTimeouts.delete(id)`. -/
def clearTimeoutS (ts : List (String × Int)) (sid : String) : List (String × Int) :=
  ts.filter fun p => p.1 != sid

/-- JS `refreshSessionTimeout(session_id)` (index.js lines 97-113): clear any
existing timer and arm a fresh one for `SESSION_TIMEOUT_MS`. -/
def refreshSessionTimeout (st : OrchState) (sid : String) (now : Int) : OrchState :=
  { st with sessionTimeouts := clearTimeoutS st.sessionTimeouts sid ++
      [(sid, now + SESSION_TIMEOUT_MS)] }

inductive EndResult where
  | notFound
  | ended (s : Session)
deriving Repr, DecidableEq

/-- JS `endSession(session_id, reason)` (index.js lines 118-152): look the
session up; if absent report failure; otherwise unconditionally set
`status = 'ended'`, `ended_at = Date.now()`, `end_reason = reason`, and
cancel the inactivity timer.  There is no check that the session was
still active. -/
def endSession (st : OrchState) (sid reason : String) (now : Int) :
    EndResult × OrchState :=
  match lookupS st.sessions sid with
  | none => (.notFound, st)
  | some s =>
    let s' := { s with status := "ended", ended_at := some now, end_reason := some reason }
    (.ended s',
      { sessions := updateS st.sessions sid s',
        sessionTimeouts := clearTimeoutS st.sessionTimeouts sid })

/-! ## TTS cache (real-tts/src/index.js, lines 41-87 and 481-616)

`synthesizeText` consults a content-addressed file cache
(`loadFromCache`) before synthesising and writes the collected audio back
on stream end (`saveToCacheAsync`).  There is no per-key in-flight
registry: the cache is only written when a synthesis completes.  The
SHA-256 content key is modelled by the text itself and the synthesiser by
a function `synthFn`.  A request is a `request` step (the synchronous
cache check and, on a miss, the start of a synthesis) and the later
asynchronous stream end is a `complete` step; interleaving `request`
steps of several callers before their `complete` steps models concurrent
callers on the single-threaded event loop. -/

structure TtsState where
  cache : List (String × List Nat)
  inflight : List String
  synthLog : List String
deriving Repr, DecidableEq

def ttsInit : TtsState := { cache := [], inflight := [], synthLog := [] }

def lookupC : List (String × List Nat) → String → Option (List Nat)
  | [], _ => none
  | (k, v) :: rest, t => if k = t then some v else lookupC rest t

inductive TtsOp where
  | request (t : String)
  | complete (t : String)

/-- One step of the cache protocol.  `request`: `loadFromCache` hit serves
the cached bytes with no synthesiser invocation; a miss starts a
synthesis (logged) whose bytes arrive at the matching `complete`, which
runs `saveToCacheAsync` (an overwriting file write). -/
def ttsStep (synthFn : String → List Nat) (st : TtsState) :
    TtsOp → TtsState × Option (List Nat)
  | .request t =>
    match lookupC st.cache t with
    | some bytes => (st, some bytes)
    | none =>
      ({ st with inflight := st.inflight ++ [t], synthLog := st.synthLog ++ [t] },
        none)
  | .complete t =>
    if t ∈ st.inflight then
      ({ cache := (st.cache.filter fun p => p.1 != t) ++ [(t, synthFn t)],
         inflight := st.inflight.erase t,
         synthLog := st.synthLog }, some (synthFn t))
    else (st, none)

def ttsRun (synthFn : String → List Nat) (st : TtsState) : List TtsOp → TtsState
  | [] => st
  | op :: rest => ttsRun synthFn (ttsStep synthFn st op).1 rest

/-! ## LLM reply parsing (/converse, index.js lines 614-634)

The raw LLM reply is trimmed; if it starts with a code fence the opening
fence (regex `^`-anchored: three backticks, an optional literal `json`,
an optional newline) and the closing fence (regex `$`-anchored: an
optional newline and three backticks) are removed; the result is fed to
`JSON.parse` (abstract parameter `p`).  On parse failure, a degraded
reply is built from the raw text with an empty timeline.  The backtick
character is written `Char.ofNat 96`. -/

def isJsWs (c : Char) : Bool := c = ' ' || c = '\t' || c = '\n' || c = '\r'

def trimL (l : List Char) : List Char := l.dropWhile isJsWs

def trimR (l : List Char) : List Char := (l.reverse.dropWhile isJsWs).reverse

def jsTrim (l : List Char) : List Char := trimR (trimL l)

def btick : Char := Char.ofNat 96

def isPrefixOfL : List Char → List Char → Bool
  | [], _ => true
  | _ :: _, [] => false
  | a :: as, b :: bs => a == b && isPrefixOfL as bs

def startsWithFence (l : List Char) : Bool := isPrefixOfL [btick, btick, btick] l

/-- The optional literal `json` of the opening-fence regex. -/
def stripJsonWord (l : List Char) : List Char :=
  if isPrefixOfL ['j', 's', 'o', 'n'] l then l.drop 4 else l

/-- The optional newline of the opening-fence regex. -/
def stripLeadingNewline (l : List Char) : List Char :=
  if isPrefixOfL ['\n'] l then l.drop 1 else l

/-- The replace of the opening fence, regex caret-anchored: three backticks,
an optional literal json, an optional newline — applied to a string
known to start with the fence. -/
def stripOpenFence (t : List Char) : List Char :=
  stripLeadingNewline (stripJsonWord (t.drop 3))

def endsWithL (suf l : List Char) : Bool := isPrefixOfL suf.reverse l.reverse

def fenceL : List Char := [btick, btick, btick]

def closeFenceNl : List Char := '\n' :: fenceL

/-- The replace of the closing fence, regex dollar-anchored: an optional
newline and three backticks. -/
def stripCloseFence (t : List Char) : List Char :=
  if endsWithL closeFenceNl t then t.take (t.length - 4)
  else if endsWithL fenceL t then t.take (t.length - 3)
  else t

def stripFences (s : List Char) : List Char :=
  let t := jsTrim s
  if startsWithFence t then stripCloseFence (stripOpenFence t) else t

structure ImageRef where
  id : String
deriving Repr, DecidableEq

structure TimelineAction where
  type : String
  payload : ImageRef
deriving Repr, DecidableEq

structure TimelineEvent where
  time_offset_ms : Option Int
  action : Option TimelineAction
deriving Repr, DecidableEq

structure LlmReply where
  speech_response : List Char
  timeline_events : Option (List TimelineEvent)
  end_chat : Bool
deriving Repr, DecidableEq

/-- The parse step of `/converse`: on `JSON.parse` failure the degraded
reply carries the raw (unstripped) text, an empty timeline and a falsy
`end_chat`. -/
def parseLlmResponse (p : List Char → Option LlmReply) (raw : List Char) : LlmReply :=
  match p (stripFences raw) with
  | some r => r
  | none => { speech_response := raw, timeline_events := some [], end_chat := false }

/-- The decoration `"```json\n" + J + "\n```"`. -/
def fencedJson (J : List Char) : List Char :=
  btick :: btick :: btick :: 'j' :: 's' :: 'o' :: 'n' :: '\n' :: (J ++ closeFenceNl)

/-- The decoration with a bare fence, `"```\n" + J + "\n```"`. -/
def fencedBare (J : List Char) : List Char :=
  btick :: btick :: btick :: '\n' :: (J ++ closeFenceNl)

/-! ## Image resolver (enrichImagePayload, index.js lines 504-568)

The catalogue is the flattening of `imageLibrary.collections`, in
document order.  The search string is the LLM id, lowercased, with
underscores replaced by spaces; each catalogue entry is scored by
JavaScript `String.prototype.includes` tests (substring containment). -/

structure CatImage where
  id : String
  cdn_url : String
  title : String
  category : String
  keywords : List String
  era : String
deriving Repr, DecidableEq

def jsLower (l : List Char) : List Char := l.map Char.toLower

def underscoresToSpaces (l : List Char) : List Char :=
  l.map fun c => if c = '_' then ' ' else c

def containsSub (need : List Char) : List Char → Bool
  | [] => isPrefixOfL need []
  | c :: rest => isPrefixOfL need (c :: rest) || containsSub need rest

/-- JS `hay.includes(needle)`. -/
def jsIncludes (hay needle : List Char) : Bool := containsSub needle hay

/-- JS `llmPayload.id.toLowerCase().split('_').join(' ')`. -/
def searchTermsOf (llmId : String) : List Char := underscoresToSpaces (jsLower llmId.data)

/-- Per-entry score: +10 for each keyword contained in the search string,
+20 if the (truthy) title is contained, +30 if the (truthy) id is
contained. -/
def scoreImage (searchTerms : List Char) (img : CatImage) : Nat :=
  let kw := img.keywords.foldl
    (fun acc k => if jsIncludes searchTerms (jsLower k.data) then acc + 10 else acc) 0
  let kw := if img.title != "" && jsIncludes searchTerms (jsLower img.title.data) then kw + 20 else kw
  if img.id != "" && jsIncludes searchTerms (jsLower img.id.data) then kw + 30 else kw

/-- The `for (const image of allImages) if (score > bestScore) ...` loop:
strict improvement only, starting from `bestScore = 0`, `bestMatch = null`. -/
def findBestAux (f : CatImage → Nat) :
    List CatImage → Option CatImage → Nat → Option CatImage × Nat
  | [], best, bs => (best, bs)
  | img :: rest, best, bs =>
    if f img > bs then findBestAux f rest (some img) (f img)
    else findBestAux f rest best bs

inductive EnrichResult where
  | matched (img : CatImage)
  | placeholder (p : ImageRef)
deriving Repr, DecidableEq

/-- JS `enrichImagePayload(llmPayload)`: the best strictly-positive scorer
wins; with no match the LLM placeholder is returned unchanged (with a
warning logged). -/
def enrichImagePayload (catalogue : List CatImage) (p : ImageRef) : EnrichResult :=
  match (findBestAux (scoreImage (searchTermsOf p.id)) catalogue none 0).1 with
  | some m => .matched m
  | none => .placeholder p

def EnrichResult.imgId : EnrichResult → String
  | .matched m => m.id
  | .placeholder p => p.id

/-! ## Conversation pipeline (app.post('/converse'), index.js lines 577-721)

External effects are inputs: `eff.llm` is the outcome of the LLM fetch
(`none` models an unreachable adapter or a non-OK response, both of which
throw into the surrounding catch), `eff.tts` the TTS fetch outcome, and
`now0`, `now1`, `now2` the successive `Date.now()` reads (activity
refresh, `speechStartTime`, end-chat send).  Dispatches record every
control message armed or sent, with the absolute instant its server timer
fires and the `playout_ts` it carries. -/

inductive CtrlType where
  | imgPreload
  | imgShow
  | endChatMsg
deriving Repr, DecidableEq

structure Dispatch where
  ctype : CtrlType
  fireAt : Int
  playout_ts : Int
  imgId : String
deriving Repr, DecidableEq

def PRELOAD_LEAD_MS : Int := 1500

/-- The timeline scheduling block (lines 669-693): `speechStartTime` is a
bare `Date.now()` — no anchor lead is added.  For each `PRELOAD_IMAGE`
event, an `img_preload` timer is armed after `max(0, offset − 1500)` ms
and an `img_show` timer after `offset` ms, both carrying
`playout_ts = speechStartTime + offset`. -/
def scheduleTimeline (cat : List CatImage) (speechStartTime : Int)
    (events : List TimelineEvent) : List Dispatch :=
  events.flatMap fun ev =>
    match ev.action with
    | some a =>
      if a.type = "PRELOAD_IMAGE" then
        let offset := ev.time_offset_ms.getD 0
        let enriched := enrichImagePayload cat a.payload
        let imagePlayoutTime := speechStartTime + offset
        let preloadOffset := max 0 (offset - PRELOAD_LEAD_MS)
        [⟨.imgPreload, speechStartTime + preloadOffset, imagePlayoutTime, enriched.imgId⟩,
          ⟨.imgShow, speechStartTime + offset, imagePlayoutTime, enriched.imgId⟩]
      else []
    | none => []

inductive LlmRespField where
  | str (s : List Char)
  | obj (r : LlmReply)
deriving Repr, DecidableEq

structure ConverseEffects where
  llm : Option LlmRespField
  tts : Option (List Nat)
  now0 : Int
  now1 : Int
  now2 : Int
deriving Repr, DecidableEq

structure ConverseResponse where
  assistant_response : List Char
  audio_base64 : List Nat
  images_scheduled : Nat
  end_chat : Bool
  tts_error : Bool
deriving Repr, DecidableEq

inductive ConverseOut where
  | badRequest
  | notFound
  | serverError
  | ok (r : ConverseResponse)
deriving Repr, DecidableEq

/-- The HTTP status actually sent for each outcome (`res.status(...)`
literals; `res.json` defaults to 200; the catch-all returns 500). -/
def ConverseOut.statusCode : ConverseOut → Nat
  | .badRequest => 400
  | .notFound => 404
  | .serverError => 500
  | .ok _ => 200

structure ConverseResult where
  out : ConverseOut
  state : OrchState
  dispatches : List Dispatch
  llmCalled : Bool
deriving Repr, DecidableEq

/-- The `POST /converse` handler.  Validation only checks that the body fields are
truthy and that the session id is present in the map — the session's
status is not inspected.  The activity refresh happens before the LLM
call, so it survives an LLM failure (the throw lands in the catch, which
answers 500). -/
def converse (p : List Char → Option LlmReply) (cat : List CatImage)
    (st : OrchState) (session_id message : Option String) (eff : ConverseEffects) :
    ConverseResult :=
  match session_id, message with
  | some sid, some msg =>
    if sid = "" ∨ msg = "" then ⟨.badRequest, st, [], false⟩
    else
      match lookupS st.sessions sid with
      | none => ⟨.notFound, st, [], false⟩
      | some s =>
        let s' := { s with last_activity := eff.now0 }
        let st1 := refreshSessionTimeout { st with sessions := updateS st.sessions sid s' } sid eff.now0
        match eff.llm with
        | none => ⟨.serverError, st1, [], true⟩
        | some respField =>
          let parsed := match respField with
            | .str raw => parseLlmResponse p raw
            | .obj r => r
          let audio := eff.tts.getD []
          let ttsErr := eff.tts.isNone
          let events := parsed.timeline_events.getD []
          let imgDispatches := if 0 < events.length then scheduleTimeline cat eff.now1 events else []
          let endDispatches := if parsed.end_chat then [⟨.endChatMsg, eff.now2, eff.now2, ""⟩] else []
          ⟨.ok ⟨parsed.speech_response, audio, events.length, parsed.end_chat, ttsErr⟩,
            st1, imgDispatches ++ endDispatches, true⟩
  | _, _ => ⟨.badRequest, st, [], false⟩

end Kiosk

namespace Kiosk

/-! ## Theorems: clock sync (C4) and playout tolerance (C5, C10) -/

/-- C4: the clock offset is learned exactly once, from the first
time-bearing message: it equals `server_ts − local_now`; afterwards every
conversion returns `server_ts − offset` without touching the state, and a
second `initializeSync` call is the identity. -/
theorem clock_sync_once (ts0 c0 : Int) :
    (initializeSync initialSync ts0 c0).timeOffset = some (ts0 - c0) ∧
    (initializeSync initialSync ts0 c0).syncInitialized = true ∧
    (∀ ts cI cR : Int,
      (convertToLocalTime (initializeSync initialSync ts0 c0) ts cI cR).2 =
        ts - (ts0 - c0) ∧
      (convertToLocalTime (initializeSync initialSync ts0 c0) ts cI cR).1 =
        initializeSync initialSync ts0 c0) ∧
    (∀ ts c : Int,
      initializeSync (initializeSync initialSync ts0 c0) ts c =
        initializeSync initialSync ts0 c0) := by
  refine ⟨rfl, rfl, ?_, ?_⟩
  · intro ts cI cR
    constructor <;> simp [convertToLocalTime, initializeSync, initialSync]
  · intro ts c
    simp [initializeSync, initialSync]

/-- Once the offset is learned, `scheduleShow` branches purely on
`delay = playout_ts − offset − now`. -/
theorem scheduleShow_initialized (o pts c1 c2 c3 cNow : Int) (id : String)
    (pend : List (String × Int)) :
    scheduleShow ⟨⟨some o, true⟩, pend⟩ id pts c1 c2 c3 cNow =
      (if pts - o - cNow > 0 then
        (⟨⟨some o, true⟩, pend ++ [(id, cNow + (pts - o - cNow))]⟩,
          .scheduled (cNow + (pts - o - cNow)))
      else if pts - o - cNow > -100 then (⟨⟨some o, true⟩, pend⟩, .immediate)
      else (⟨⟨some o, true⟩, pend⟩, .dropped)) := by
  simp [scheduleShow, convertToLocalTime, initializeSync, sub_sub]

/-- C5 fails as stated: a show arriving exactly 100 ms late
(`delay = −100`) is dropped, not rendered; the tolerated branch requires
`delay > −100` strictly.  Concrete input: offset already learned as `0`,
`playout_ts = −100`, current clock `0`, so `delay = −100`. -/
theorem late_show_boundary_counterexample :
    (scheduleShow ⟨⟨some 0, true⟩, []⟩ "img" (-100) 0 0 0 0).2 =
      ShowOutcome.dropped ∧
    ShowOutcome.dropped ≠ ShowOutcome.immediate := by
  constructor
  · rfl
  · decide

/-- C5 amended: with the offset learned, for `delay = playout_ts − offset − now`:
a strictly future show (`delay > 0`) arms a timer at the exact instant and
records it in the pending store; a show with `−100 < delay ≤ 0` renders
immediately (late-but-tolerated); a show with `delay ≤ −100` — including
one exactly 100 ms late — is dropped with the state left unchanged, so
later in-time shows are unaffected. -/
theorem late_show_branches (o cNow pts c1 c2 c3 : Int) (id : String)
    (pend : List (String × Int)) :
    (pts - o - cNow > 0 →
      scheduleShow ⟨⟨some o, true⟩, pend⟩ id pts c1 c2 c3 cNow =
        (⟨⟨some o, true⟩, pend ++ [(id, pts - o)]⟩, .scheduled (pts - o))) ∧
    (-100 < pts - o - cNow ∧ pts - o - cNow ≤ 0 →
      scheduleShow ⟨⟨some o, true⟩, pend⟩ id pts c1 c2 c3 cNow =
        (⟨⟨some o, true⟩, pend⟩, .immediate)) ∧
    (pts - o - cNow ≤ -100 →
      scheduleShow ⟨⟨some o, true⟩, pend⟩ id pts c1 c2 c3 cNow =
        (⟨⟨some o, true⟩, pend⟩, .dropped)) := by
  rw [scheduleShow_initialized]
  refine ⟨?_, ?_, ?_⟩
  · intro h
    rw [if_pos h]
    have : cNow + (pts - o - cNow) = pts - o := by ring
    rw [this]
  · intro h
    rw [if_neg (by omega), if_pos (by omega)]
  · intro h
    rw [if_neg (by omega), if_neg (by omega)]

/-- Witness for `late_show_branches`: all three branches evaluated at
concrete inputs (delays 50, −50 and −250 with offset 0, clock 0). -/
theorem late_show_branches_witness :
    (scheduleShow ⟨⟨some 0, true⟩, []⟩ "a" 50 0 0 0 0 =
      (⟨⟨some 0, true⟩, [("a", 50)]⟩, .scheduled 50)) ∧
    (scheduleShow ⟨⟨some 0, true⟩, []⟩ "b" (-50) 0 0 0 0 =
      (⟨⟨some 0, true⟩, []⟩, .immediate)) ∧
    (scheduleShow ⟨⟨some 0, true⟩, []⟩ "c" (-250) 0 0 0 0 =
      (⟨⟨some 0, true⟩, []⟩, .dropped)) := by
  refine ⟨?_, ?_, ?_⟩
  · have h := (late_show_branches 0 0 50 0 0 0 "a" []).1 (by decide)
    simpa using h
  · have h := (late_show_branches 0 0 (-50) 0 0 0 "b" []).2.1 (by decide)
    simpa using h
  · have h := (late_show_branches 0 0 (-250) 0 0 0 "c" []).2.2 (by decide)
    simpa using h

/-- C10: when the very first time-bearing message the client handles is an
`img_show`, `scheduleShow` learns the offset from that message's own
`playout_ts`; with no time passing between the clock reads (all reads
equal `c`), the converted local time equals `c`, the delay is `0`, and the
image is rendered immediately through the tolerated branch — whatever
value `playout_ts` has. -/
theorem first_show_renders_immediately (pts c : Int) (id : String)
    (pend : List (String × Int)) (hpts : pts ≠ 0) :
    scheduleShow ⟨initialSync, pend⟩ id pts c c c c =
      (⟨⟨some (pts - c), true⟩, pend⟩, .immediate) := by
  simp [scheduleShow, convertToLocalTime, initializeSync, initialSync, hpts]

/-- Witness for `first_show_renders_immediately` at `playout_ts = 5000`,
clock `17`: the far-future server instant is rendered at once. -/
theorem first_show_renders_immediately_witness :
    scheduleShow ⟨initialSync, []⟩ "w" 5000 17 17 17 17 =
      (⟨⟨some 4983, true⟩, []⟩, .immediate) := by
  have h := first_show_renders_immediately 5000 17 "w" [] (by decide)
  simpa using h

/-! ## Theorems: session registry (C9) and converse validation (C1, C7) -/

theorem lookupS_updateS (m : List (String × Session)) (sid : String) (s s0 : Session)
    (h : lookupS m sid = some s0) : lookupS (updateS m sid s) sid = some s := by
  induction m with
  | nil => simp [lookupS] at h
  | cons p rest ih =>
    obtain ⟨k, v⟩ := p
    simp only [updateS, List.map_cons]
    by_cases hk : k = sid
    · subst hk
      rw [show ((if ((k, v) : String × Session).1 = k then (k, s) else (k, v))) = (k, s) from if_pos rfl]
      simp [lookupS]
    · rw [show ((if ((k, v) : String × Session).1 = sid then (sid, s) else (k, v))) = (k, v) from if_neg hk]
      simp only [lookupS, if_neg hk]
      simp only [lookupS, if_neg hk] at h
      exact ih h

theorem clearTimeoutS_not_mem (ts : List (String × Int)) (sid : String) :
    ∀ q ∈ clearTimeoutS ts sid, q.1 ≠ sid := by
  intro q hq
  have := List.mem_filter.mp hq
  simpa [bne_iff_ne] using this.2

/-- A session that already carries `status = 'ended'`, `ended_at = 5`,
`end_reason = 'manual'`. -/
def c9Session : Session :=
  ⟨"s1", "k", "room", 0, 300, "ended", 0, some 5, some "manual"⟩

def c9State : OrchState := ⟨[("s1", c9Session)], []⟩

/-- C9 fails as stated: a second `endSession` on an already-ended session
does not leave the record unchanged — it overwrites `ended_at` and
`end_reason` with the later call's values. -/
theorem end_session_overwrites_counterexample :
    (endSession c9State "s1" "timeout" 10).1 =
      EndResult.ended { c9Session with ended_at := some 10, end_reason := some "timeout" } ∧
    { c9Session with ended_at := some 10, end_reason := some "timeout" } ≠ c9Session := by
  constructor
  · rfl
  · decide

/-- C9 amended: `endSession` on any stored session — active or already
ended — unconditionally rewrites it to `status = 'ended'` with the
current call's `ended_at` and `end_reason`, and cancels the session's
inactivity timer; so the first end on an active session transitions it
and cancels its timer, while a second end keeps the session ended but
overwrites the two bookkeeping fields. -/
theorem end_session_behaviour (st : OrchState) (sid reason : String) (now : Int)
    (s : Session) (h : lookupS st.sessions sid = some s) :
    (endSession st sid reason now).1 =
      EndResult.ended { s with status := "ended", ended_at := some now, end_reason := some reason } ∧
    lookupS (endSession st sid reason now).2.sessions sid =
      some { s with status := "ended", ended_at := some now, end_reason := some reason } ∧
    (∀ q ∈ (endSession st sid reason now).2.sessionTimeouts, q.1 ≠ sid) := by
  refine ⟨?_, ?_, ?_⟩
  · simp [endSession, h]
  · simp only [endSession, h]
    exact lookupS_updateS st.sessions sid _ s h
  · simp only [endSession, h]
    exact clearTimeoutS_not_mem st.sessionTimeouts sid

/-- An active session used to exercise the first-end path of
`end_session_behaviour`. -/
def c9ActiveSession : Session := ⟨"s2", "k", "room2", 0, 300, "active", 0, none, none⟩

def c9ActiveState : OrchState := ⟨[("s2", c9ActiveSession)], [("s2", 600000)]⟩

/-- Witness for `end_session_behaviour`: ending the active session `s2`
at t = 7 marks it ended and leaves no timer for it. -/
theorem end_session_behaviour_witness :
    (endSession c9ActiveState "s2" "manual" 7).1 =
      EndResult.ended { c9ActiveSession with status := "ended", ended_at := some 7, end_reason := some "manual" } ∧
    lookupS (endSession c9ActiveState "s2" "manual" 7).2.sessions "s2" =
      some { c9ActiveSession with status := "ended", ended_at := some 7, end_reason := some "manual" } ∧
    (∀ q ∈ (endSession c9ActiveState "s2" "manual" 7).2.sessionTimeouts, q.1 ≠ "s2") :=
  end_session_behaviour c9ActiveState "s2" "manual" 7 c9ActiveSession (by decide)

/-- A parser that always fails, so the degraded path is taken. -/
def c1Parse : List Char → Option LlmReply := fun _ => none

def c1Ended : Session := ⟨"s1", "k", "room", 0, 300, "ended", 0, some 5, some "manual"⟩

def c1State : OrchState := ⟨[("s1", c1Ended)], []⟩

def c1Eff : ConverseEffects := ⟨some (.str ['h', 'i']), some [1], 50, 60, 70⟩

/-- C1 fails as stated: a session whose state is `ended` but which has not
yet been swept from the registry does **not** produce
`session_not_found` — the turn proceeds (the LLM is called) and the
inactivity timer is re-armed. -/
theorem converse_ended_session_counterexample :
    (converse c1Parse [] c1State (some "s1") (some "hello") c1Eff).out ≠
      ConverseOut.notFound ∧
    (converse c1Parse [] c1State (some "s1") (some "hello") c1Eff).llmCalled = true ∧
    (converse c1Parse [] c1State (some "s1") (some "hello") c1Eff).state.sessionTimeouts =
      [("s1", 50 + SESSION_TIMEOUT_MS)] := by
  refine ⟨by decide, by decide, by decide⟩

/-- C1 amended: `converse` answers `session_not_found` (404) exactly when
the registry holds no record for `session_id` — and then nothing happens:
no LLM call, no state change, no dispatch.  When a record exists, whatever
its state (active or ended-but-unswept), the turn proceeds: the LLM is
called, `last_activity` is set and the inactivity timer is re-armed
first. -/
theorem converse_validation (p : List Char → Option LlmReply) (cat : List CatImage)
    (st : OrchState) (sid msg : String) (eff : ConverseEffects)
    (hsid : sid ≠ "") (hmsg : msg ≠ "") :
    (lookupS st.sessions sid = none →
      converse p cat st (some sid) (some msg) eff = ⟨.notFound, st, [], false⟩) ∧
    (∀ s, lookupS st.sessions sid = some s →
      (converse p cat st (some sid) (some msg) eff).llmCalled = true ∧
      (converse p cat st (some sid) (some msg) eff).state.sessionTimeouts =
        clearTimeoutS st.sessionTimeouts sid ++ [(sid, eff.now0 + SESSION_TIMEOUT_MS)] ∧
      lookupS (converse p cat st (some sid) (some msg) eff).state.sessions sid =
        some { s with last_activity := eff.now0 }) := by
  have hvm : ¬(sid = "" ∨ msg = "") := by
    push_neg
    exact ⟨hsid, hmsg⟩
  constructor
  · intro h
    simp only [converse]
    rw [if_neg hvm, h]
  · intro s hs
    have hupd := lookupS_updateS st.sessions sid { s with last_activity := eff.now0 } s hs
    simp only [converse]
    rw [if_neg hvm, hs]
    cases hllm : eff.llm with
    | none => exact ⟨rfl, rfl, hupd⟩
    | some f => exact ⟨rfl, rfl, hupd⟩

def c1ActiveSession : Session := ⟨"s3", "k", "room3", 0, 300, "active", 0, none, none⟩

def c1ActiveState : OrchState := ⟨[("s3", c1ActiveSession)], [("s3", 99)]⟩

/-- Witness for `converse_validation`: an unknown id is refused with 404
and no side effect; a present (active) session proceeds with the timer
re-armed. -/
theorem converse_validation_witness :
    converse c1Parse [] (⟨[], []⟩ : OrchState) (some "nope") (some "hi") c1Eff =
      ⟨.notFound, ⟨[], []⟩, [], false⟩ ∧
    (converse c1Parse [] c1ActiveState (some "s3") (some "hi") c1Eff).llmCalled = true ∧
    (converse c1Parse [] c1ActiveState (some "s3") (some "hi") c1Eff).state.sessionTimeouts =
      clearTimeoutS [("s3", 99)] "s3" ++ [("s3", 50 + SESSION_TIMEOUT_MS)] ∧
    lookupS (converse c1Parse [] c1ActiveState (some "s3") (some "hi") c1Eff).state.sessions "s3" =
      some { c1ActiveSession with last_activity := 50 } := by
  refine ⟨?_, ?_⟩
  · exact (converse_validation c1Parse [] ⟨[], []⟩ "nope" "hi" c1Eff (by decide) (by decide)).1 (by decide)
  · exact (converse_validation c1Parse [] c1ActiveState "s3" "hi" c1Eff (by decide) (by decide)).2
      c1ActiveSession (by decide)

def c7Active : Session := ⟨"s1", "k", "room", 0, 300, "active", 0, none, none⟩

def c7State : OrchState := ⟨[("s1", c7Active)], []⟩

/-- The LLM fetch fails (unreachable or non-OK): the thrown error lands in
the catch-all. -/
def c7Eff : ConverseEffects := ⟨none, some [1], 50, 60, 70⟩

/-- C7 fails as stated: an LLM failure surfaces as HTTP 500 (the generic
catch), not 502.  The rest of the claim holds: no visuals are scheduled
and the session stays active. -/
theorem llm_failure_status_counterexample :
    (converse c1Parse [] c7State (some "s1") (some "hi") c7Eff).out.statusCode = 500 ∧
    (converse c1Parse [] c7State (some "s1") (some "hi") c7Eff).out.statusCode ≠ 502 ∧
    (converse c1Parse [] c7State (some "s1") (some "hi") c7Eff).dispatches = [] ∧
    (lookupS (converse c1Parse [] c7State (some "s1") (some "hi") c7Eff).state.sessions
        "s1").map Session.status = some "active" := by
  refine ⟨by decide, by decide, by decide, by decide⟩

/-- C7 amended: when the LLM adapter is unreachable or returns a non-OK
response, the turn fails with the generic internal-error path surfaced as
HTTP **500** (there is no dedicated 502), no visual control message is
scheduled, and the session record keeps its previous status (an active
session remains active, with only `last_activity` refreshed). -/
theorem llm_failure_behaviour (p : List Char → Option LlmReply) (cat : List CatImage)
    (st : OrchState) (sid msg : String) (eff : ConverseEffects) (s : Session)
    (hsid : sid ≠ "") (hmsg : msg ≠ "")
    (hs : lookupS st.sessions sid = some s) (hllm : eff.llm = none) :
    (converse p cat st (some sid) (some msg) eff).out = .serverError ∧
    (converse p cat st (some sid) (some msg) eff).out.statusCode = 500 ∧
    (converse p cat st (some sid) (some msg) eff).dispatches = [] ∧
    lookupS (converse p cat st (some sid) (some msg) eff).state.sessions sid =
      some { s with last_activity := eff.now0 } ∧
    ({ s with last_activity := eff.now0 } : Session).status = s.status := by
  have hvm : ¬(sid = "" ∨ msg = "") := by
    push_neg
    exact ⟨hsid, hmsg⟩
  have hupd := lookupS_updateS st.sessions sid { s with last_activity := eff.now0 } s hs
  simp only [converse]
  rw [if_neg hvm, hs, hllm]
  exact ⟨rfl, rfl, rfl, hupd, trivial⟩

/-- Witness for `llm_failure_behaviour` on the active session `s1`. -/
theorem llm_failure_behaviour_witness :
    (converse c1Parse [] c7State (some "s1") (some "ok") c7Eff).out = .serverError ∧
    (converse c1Parse [] c7State (some "s1") (some "ok") c7Eff).out.statusCode = 500 ∧
    (converse c1Parse [] c7State (some "s1") (some "ok") c7Eff).dispatches = [] ∧
    lookupS (converse c1Parse [] c7State (some "s1") (some "ok") c7Eff).state.sessions "s1" =
      some { c7Active with last_activity := 50 } ∧
    ({ c7Active with last_activity := 50 } : Session).status = c7Active.status :=
  llm_failure_behaviour c1Parse [] c7State "s1" "ok" c7Eff c7Active
    (by decide) (by decide) (by decide) rfl

/-! ## Theorems: timeline anchoring and scheduling (C2) -/

theorem int_add_max_zero (a b : Int) : a + max 0 b = max a (a + b) := by
  rcases le_total b 0 with h | h
  · rw [max_eq_left h, max_eq_left (by omega), add_zero]
  · rw [max_eq_right h, max_eq_right (by omega)]

def c2Event : TimelineEvent :=
  ⟨some 2000, some ⟨"PRELOAD_IMAGE", ⟨"zzz"⟩⟩⟩

/-- C2 fails as stated: the timeline anchor is a bare `Date.now()` — no
`ANCHOR_LEAD_MS` pre-roll is added.  With `server_now = 0` and
`time_offset_ms = 2000`, the dispatched `img_show` carries
`playout_ts = 2000`, not `0 + 1000 + 2000`. -/
theorem anchor_lead_counterexample :
    scheduleTimeline [] 0 [c2Event] =
      [⟨.imgPreload, 500, 2000, "zzz"⟩, ⟨.imgShow, 2000, 2000, "zzz"⟩] ∧
    (2000 : Int) ≠ 0 + 1000 + 2000 := by
  refine ⟨by decide, by decide⟩

/-- C2 amended: the anchor is `speech_start_ts = server_now()` with **no**
lead.  For every `PRELOAD_IMAGE` timeline event with offset `o`, both the
`img_preload` and the `img_show` control message carry
`playout_ts = speech_start_ts + o`; the show timer fires at that instant
and the preload timer at `max(now, show_at − PRELOAD_LEAD_MS)` with
`PRELOAD_LEAD_MS = 1500`. -/
theorem timeline_schedule_arithmetic (cat : List CatImage) (now1 : Int)
    (events : List TimelineEvent) (ev : TimelineEvent) (hev : ev ∈ events)
    (a : TimelineAction) (ha : ev.action = some a) (hty : a.type = "PRELOAD_IMAGE") :
    (⟨.imgPreload, max now1 (now1 + ev.time_offset_ms.getD 0 - PRELOAD_LEAD_MS),
        now1 + ev.time_offset_ms.getD 0,
        (enrichImagePayload cat a.payload).imgId⟩ : Dispatch) ∈
      scheduleTimeline cat now1 events ∧
    (⟨.imgShow, now1 + ev.time_offset_ms.getD 0, now1 + ev.time_offset_ms.getD 0,
        (enrichImagePayload cat a.payload).imgId⟩ : Dispatch) ∈
      scheduleTimeline cat now1 events := by
  have hfire : now1 + max 0 (ev.time_offset_ms.getD 0 - PRELOAD_LEAD_MS) =
      max now1 (now1 + ev.time_offset_ms.getD 0 - PRELOAD_LEAD_MS) := by
    rw [int_add_max_zero, add_sub_assoc]
  constructor
  · refine List.mem_flatMap.mpr ⟨ev, hev, ?_⟩
    rw [ha]
    simp only [hty, if_pos rfl, hfire]
    simp
  · refine List.mem_flatMap.mpr ⟨ev, hev, ?_⟩
    rw [ha]
    simp only [hty, if_pos rfl]
    simp

def c2Event2 : TimelineEvent :=
  ⟨some 400, some ⟨"PRELOAD_IMAGE", ⟨"owl"⟩⟩⟩

/-- Witness for `timeline_schedule_arithmetic`: anchor `100`, offset `400`
(less than the preload lead, so the preload timer clamps to `now`). -/
theorem timeline_schedule_arithmetic_witness :
    (⟨.imgPreload, max 100 (100 + (400 : Int) - PRELOAD_LEAD_MS), 100 + (400 : Int),
        (enrichImagePayload [] (⟨"owl"⟩ : ImageRef)).imgId⟩ : Dispatch) ∈
      scheduleTimeline [] 100 [c2Event2] ∧
    (⟨.imgShow, 100 + (400 : Int), 100 + (400 : Int),
        (enrichImagePayload [] (⟨"owl"⟩ : ImageRef)).imgId⟩ : Dispatch) ∈
      scheduleTimeline [] 100 [c2Event2] :=
  timeline_schedule_arithmetic [] 100 [c2Event2] c2Event2 (by decide)
    ⟨"PRELOAD_IMAGE", ⟨"owl"⟩⟩ rfl rfl

/-! ## Theorems: TTS cache and missing single-flight (C3) -/

theorem lookupC_scrub (l : List (String × List Nat)) (t : String) (v : List Nat) :
    lookupC ((l.filter fun p => p.1 != t) ++ [(t, v)]) t = some v := by
  induction l with
  | nil => simp [lookupC]
  | cons p rest ih =>
    obtain ⟨k, w⟩ := p
    by_cases hk : k = t
    · simp only [List.filter_cons]
      rw [show ((((k, w) : String × List Nat).1 != t) = false) by simp [hk]]
      simpa using ih
    · simp only [List.filter_cons]
      rw [show ((((k, w) : String × List Nat).1 != t) = true) by simp [hk]]
      simp only [List.cons_append, lookupC, if_neg hk]
      exact ih

def c3Synth : String → List Nat := fun _ => [7, 7, 7]

/-- C3 fails as stated: there is no single-flight coordination.  Two
concurrent callers for the same text — both of whose cache checks run
before either synthesis completes — each invoke the synthesiser: the
invocation log for `"hello"` has length 2. -/
theorem single_flight_counterexample :
    (ttsRun c3Synth ttsInit [.request "hello", .request "hello"]).synthLog =
      ["hello", "hello"] ∧
    ¬ (ttsRun c3Synth ttsInit [.request "hello", .request "hello"]).synthLog.length ≤ 1 := by
  refine ⟨by decide, by decide⟩

/-- C3 amended: the cache offers no single-flight — every request that
misses the cache invokes the synthesiser (so n concurrent first requests
cause n invocations) — but a request that hits the cache is served the
stored bytes with no invocation, and once a synthesis for `t` completes,
a later request for the identical text is served its bytes from the cache
without invoking the synthesiser again. -/
theorem tts_cache_behaviour (synthFn : String → List Nat) (st : TtsState) (t : String) :
    (∀ b, lookupC st.cache t = some b →
      ttsStep synthFn st (.request t) = (st, some b)) ∧
    (lookupC st.cache t = none →
      (ttsStep synthFn st (.request t)).1.synthLog = st.synthLog ++ [t] ∧
      (ttsStep synthFn st (.request t)).2 = none) ∧
    (t ∈ st.inflight →
      lookupC (ttsStep synthFn st (.complete t)).1.cache t = some (synthFn t) ∧
      (ttsStep synthFn st (.complete t)).1.synthLog = st.synthLog) ∧
    (lookupC st.cache t = none →
      (ttsStep synthFn (ttsRun synthFn st [.request t, .complete t]) (.request t)).2 =
        some (synthFn t) ∧
      (ttsStep synthFn (ttsRun synthFn st [.request t, .complete t]) (.request t)).1.synthLog =
        st.synthLog ++ [t]) := by
  refine ⟨?_, ?_, ?_, ?_⟩
  · intro b hb
    simp [ttsStep, hb]
  · intro hb
    simp [ttsStep, hb]
  · intro hin
    constructor
    · simp only [ttsStep, if_pos hin]
      exact lookupC_scrub st.cache t (synthFn t)
    · simp [ttsStep, hin]
  · intro hb
    have h2 : ttsRun synthFn st [.request t, .complete t] =
        ⟨(st.cache.filter fun p => p.1 != t) ++ [(t, synthFn t)], (st.inflight ++ [t]).erase t, st.synthLog ++ [t]⟩ := by
      simp only [ttsRun, ttsStep, hb]
      rw [if_pos (show t ∈ st.inflight ++ [t] by simp)]
    have h3 := lookupC_scrub st.cache t (synthFn t)
    rw [h2]
    simp only [ttsStep, h3]
    exact ⟨trivial, trivial⟩

/-- Witness for `tts_cache_behaviour`: a pre-populated cache serves `[9]`
without synthesis; a fresh text logs one invocation; and the
request/complete/request sequence ends serving the synthesised bytes with
a single log entry. -/
theorem tts_cache_behaviour_witness :
    ttsStep c3Synth ⟨[("hi", [9])], [], []⟩ (.request "hi") =
      (⟨[("hi", [9])], [], []⟩, some [9]) ∧
    (ttsStep c3Synth ttsInit (.request "new")).1.synthLog = [] ++ ["new"] ∧
    lookupC (ttsStep c3Synth ⟨[], ["hi"], []⟩ (.complete "hi")).1.cache "hi" =
      some (c3Synth "hi") ∧
    (ttsStep c3Synth (ttsRun c3Synth ttsInit [.request "q", .complete "q"]) (.request "q")).2 =
      some (c3Synth "q") := by
  refine ⟨?_, ?_, ?_, ?_⟩
  · exact (tts_cache_behaviour c3Synth ⟨[("hi", [9])], [], []⟩ "hi").1 [9] (by decide)
  · exact ((tts_cache_behaviour c3Synth ttsInit "new").2.1 (by decide)).1
  · exact ((tts_cache_behaviour c3Synth ⟨[], ["hi"], []⟩ "hi").2.2.1 (by decide)).1
  · exact ((tts_cache_behaviour c3Synth ttsInit "q").2.2.2 (by decide)).1

/-! ## Theorems: fenced-code stripping of the LLM reply (C6) -/

theorem isJsWs_btick : isJsWs btick = false := rfl

theorem trimL_cons_not_ws (c : Char) (l : List Char) (h : isJsWs c = false) :
    trimL (c :: l) = c :: l := by
  simp [trimL, List.dropWhile_cons, h]

theorem trimR_snoc_not_ws (l : List Char) (c : Char) (h : isJsWs c = false) :
    trimR (l ++ [c]) = l ++ [c] := by
  simp [trimR, List.dropWhile_cons, h]

theorem jsTrim_wrap (mid : List Char) :
    jsTrim ((btick :: mid) ++ [btick]) = (btick :: mid) ++ [btick] := by
  unfold jsTrim
  rw [List.cons_append, trimL_cons_not_ws btick _ isJsWs_btick, ← List.cons_append,
    trimR_snoc_not_ws _ _ isJsWs_btick]

theorem isPrefixOfL_append (l m : List Char) : isPrefixOfL l (l ++ m) = true := by
  induction l with
  | nil => rfl
  | cons a as ih => simp [isPrefixOfL, ih]

theorem endsWithL_append (suf l : List Char) : endsWithL suf (l ++ suf) = true := by
  unfold endsWithL
  rw [List.reverse_append]
  exact isPrefixOfL_append _ _

theorem stripCloseFence_append (J : List Char) :
    stripCloseFence (J ++ closeFenceNl) = J := by
  unfold stripCloseFence
  rw [endsWithL_append]
  have hlen : (J ++ closeFenceNl).length - 4 = J.length := by
    simp [closeFenceNl, fenceL]
  simp only [if_true, hlen]
  exact List.take_left _ _

theorem fencedJson_shape (J : List Char) :
    fencedJson J =
      (btick :: (btick :: btick :: 'j' :: 's' :: 'o' :: 'n' :: '\n' :: (J ++ ['\n', btick, btick]))) ++ [btick] := by
  simp [fencedJson, closeFenceNl, fenceL]

theorem fencedBare_shape (J : List Char) :
    fencedBare J = (btick :: (btick :: btick :: '\n' :: (J ++ ['\n', btick, btick]))) ++ [btick] := by
  simp [fencedBare, closeFenceNl, fenceL]

theorem stripFences_fencedJson (J : List Char) : stripFences (fencedJson J) = J := by
  have htrim : jsTrim (fencedJson J) = fencedJson J := by
    rw [fencedJson_shape]
    exact jsTrim_wrap _
  have hopen : stripOpenFence (fencedJson J) = J ++ closeFenceNl := rfl
  simp only [stripFences, htrim]
  rw [show startsWithFence (fencedJson J) = true from rfl]
  simp only [if_true, hopen]
  exact stripCloseFence_append J

theorem stripFences_fencedBare (J : List Char) : stripFences (fencedBare J) = J := by
  have htrim : jsTrim (fencedBare J) = fencedBare J := by
    rw [fencedBare_shape]
    exact jsTrim_wrap _
  have hopen : stripOpenFence (fencedBare J) = J ++ closeFenceNl := rfl
  simp only [stripFences, htrim]
  rw [show startsWithFence (fencedBare J) = true from rfl]
  simp only [if_true, hopen]
  exact stripCloseFence_append J

theorem stripFences_id (J : List Char) (htrim : jsTrim J = J)
    (hfence : startsWithFence J = false) : stripFences J = J := by
  simp only [stripFences, htrim]
  simp [hfence]

/-- C6: for a well-formed structured reply text `J` (trimmed, not itself
fence-decorated, accepted by the JSON parser `p` with result `r`), the
raw string, the json-tagged fenced decoration and the bare-fenced
decoration all parse to the same reply `r`; and any string `s` that still
fails to parse after fence stripping degrades to a reply whose speech is
the raw text, with an empty timeline and `end_chat` false. -/
theorem fenced_parse_equivalence (p : List Char → Option LlmReply) (J s : List Char)
    (r : LlmReply) (htrim : jsTrim J = J) (hfence : startsWithFence J = false)
    (hr : p J = some r) (hs : p (stripFences s) = none) :
    parseLlmResponse p (fencedJson J) = r ∧
    parseLlmResponse p (fencedBare J) = r ∧
    parseLlmResponse p J = r ∧
    parseLlmResponse p s = ⟨s, some [], false⟩ := by
  refine ⟨?_, ?_, ?_, ?_⟩
  · simp only [parseLlmResponse, stripFences_fencedJson, hr]
  · simp only [parseLlmResponse, stripFences_fencedBare, hr]
  · simp only [parseLlmResponse, stripFences_id J htrim hfence, hr]
  · simp only [parseLlmResponse, hs]

def c6Reply : LlmReply := ⟨['o', 'k'], some [], true⟩

/-- A parser accepting exactly the body `"x"`. -/
def c6Parse : List Char → Option LlmReply :=
  fun l => if l = ['x'] then some c6Reply else none

/-- Witness for `fenced_parse_equivalence` with body `"x"` and the
unparseable string `"y"`. -/
theorem fenced_parse_equivalence_witness :
    parseLlmResponse c6Parse (fencedJson ['x']) = c6Reply ∧
    parseLlmResponse c6Parse (fencedBare ['x']) = c6Reply ∧
    parseLlmResponse c6Parse ['x'] = c6Reply ∧
    parseLlmResponse c6Parse ['y'] = ⟨['y'], some [], false⟩ :=
  fenced_parse_equivalence c6Parse ['x'] ['y'] c6Reply (by decide) (by decide)
    (by decide) (by decide)

/-! ## Theorems: image resolver fallback and scoring (C8) -/

/-- The `if (score > bestScore)` loop either never improves on the running
pair, or returns the first catalogue entry attaining the maximal strict
improvement, with everything before it scoring strictly less and
everything after it scoring no more. -/
theorem findBestAux_split (f : CatImage → Nat) :
    ∀ (l : List CatImage) (b : Option CatImage) (bs : Nat),
      (findBestAux f l b bs = (b, bs) ∧ ∀ x ∈ l, f x ≤ bs) ∨
      (∃ pre m post, l = pre ++ m :: post ∧
        findBestAux f l b bs = (some m, f m) ∧ bs < f m ∧
        (∀ x ∈ pre, f x < f m) ∧ (∀ x ∈ post, f x ≤ f m)) := by
  intro l
  induction l with
  | nil =>
    intro b bs
    left
    exact ⟨rfl, by simp⟩
  | cons hd tl ih =>
    intro b bs
    by_cases hh : f hd > bs
    · rcases ih (some hd) (f hd) with ⟨heq, hle⟩ | ⟨pre, m, post, htl, heq, hlt, hpre, hpost⟩
      · right
        refine ⟨[], hd, tl, by simp, ?_, hh, by simp, hle⟩
        simp only [findBestAux, if_pos hh]
        exact heq
      · right
        refine ⟨hd :: pre, m, post, by simp [htl], ?_, lt_trans hh hlt, ?_, hpost⟩
        · simp only [findBestAux, if_pos hh]
          exact heq
        · intro x hx
          rcases List.mem_cons.mp hx with rfl | hx
          · exact hlt
          · exact hpre x hx
    · push_neg at hh
      have hh' : ¬ f hd > bs := by omega
      rcases ih b bs with ⟨heq, hle⟩ | ⟨pre, m, post, htl, heq, hlt, hpre, hpost⟩
      · left
        refine ⟨?_, ?_⟩
        · simp only [findBestAux, if_neg hh']
          exact heq
        · intro x hx
          rcases List.mem_cons.mp hx with rfl | hx
          · exact hh
          · exact hle x hx
      · right
        refine ⟨hd :: pre, m, post, by simp [htl], ?_, hlt, ?_, hpost⟩
        · simp only [findBestAux, if_neg hh']
          exact heq
        · intro x hx
          rcases List.mem_cons.mp hx with rfl | hx
          · omega
          · exact hpre x hx

def c8Cat : List CatImage :=
  [⟨"discus", "u", "Discus", "sport", ["discus"], "classical"⟩]

def c8Ref : ImageRef := ⟨"zzz"⟩

/-- C8 fails as stated: an input whose scored match finds no entry with
score > 0 is **not** replaced by a randomised catalogue fallback — the
pipeline's resolver (`enrichImagePayload`) passes the unresolved LLM
placeholder through unchanged. -/
theorem resolver_fallback_counterexample :
    enrichImagePayload c8Cat c8Ref = .placeholder c8Ref ∧
    (∀ m ∈ c8Cat, enrichImagePayload c8Cat c8Ref ≠ .matched m) := by
  refine ⟨by decide, by decide⟩

/-- C8 amended: when no catalogue entry scores above zero the resolver
returns the LLM placeholder unchanged (logging a warning); when some
entry scores positively, the winner is a positively-scoring entry such
that every entry earlier in catalogue order scores strictly less and
every later entry scores no more — i.e. the highest score wins with ties
broken by catalogue order. -/
theorem resolver_behaviour (cat : List CatImage) (ref : ImageRef) :
    ((∀ img ∈ cat, scoreImage (searchTermsOf ref.id) img = 0) →
      enrichImagePayload cat ref = .placeholder ref) ∧
    (∀ m, enrichImagePayload cat ref = .matched m →
      0 < scoreImage (searchTermsOf ref.id) m ∧
      ∃ pre post, cat = pre ++ m :: post ∧
        (∀ x ∈ pre, scoreImage (searchTermsOf ref.id) x < scoreImage (searchTermsOf ref.id) m) ∧
        (∀ x ∈ post, scoreImage (searchTermsOf ref.id) x ≤ scoreImage (searchTermsOf ref.id) m)) := by
  constructor
  · intro hz
    rcases findBestAux_split (scoreImage (searchTermsOf ref.id)) cat none 0 with
      ⟨heq, _⟩ | ⟨pre, m, post, hcat, heq, hlt, _, _⟩
    · simp [enrichImagePayload, heq]
    · exfalso
      have hm0 : scoreImage (searchTermsOf ref.id) m = 0 := hz m (by simp [hcat])
      omega
  · intro m hm
    rcases findBestAux_split (scoreImage (searchTermsOf ref.id)) cat none 0 with
      ⟨heq, _⟩ | ⟨pre, m', post, hcat, heq, hlt, hpre, hpost⟩
    · exfalso
      simp [enrichImagePayload, heq] at hm
    · have hmm : m' = m := by
        simpa [enrichImagePayload, heq] using hm
      subst hmm
      exact ⟨by omega, pre, post, hcat, hpre, hpost⟩

def c8Ref2 : ImageRef := ⟨"qqq"⟩

def c8Match : CatImage :=
  ⟨"parthenon", "u", "Parthenon", "temples", ["parthenon", "athens"], "classical"⟩

/-- Witness for `resolver_behaviour`: a zero-scoring reference passes
through; `"parthenon_athens"` resolves with a strictly positive score. -/
theorem resolver_behaviour_witness :
    enrichImagePayload c8Cat c8Ref2 = .placeholder c8Ref2 ∧
    0 < scoreImage (searchTermsOf (⟨"parthenon_athens"⟩ : ImageRef).id) c8Match :=
  ⟨(resolver_behaviour c8Cat c8Ref2).1 (by decide),
    ((resolver_behaviour [c8Match] ⟨"parthenon_athens"⟩).2 c8Match (by decide)).1⟩

end Kiosk
